import Mathlib

/-!
Shallow embedding of the tournament orchestration engine of `src/lib/tournament.ts`
(the spikers repository).  Player, team, match and game identifiers are `Nat`
(the source uses opaque cuid strings; only equality and freshness matter).
The storage collaborator is modelled as in-memory lists on a `Tournament`
state; freshly created rows take their ids from the `nextId` counter.
The external game/rating collaborator (`createSessionGameWithElo`) only
contributes an opaque game id, modelled as a fresh id; the external badge
collaborator has no effect on tournament state and is omitted.
`endedAt` timestamps are not modelled (no claim mentions real time).
-/

namespace Spikers

/-- TournamentMatchStage of the Prisma schema: the stage a single match belongs to. -/
inductive MatchStage
  | roundRobin
  | bracket
  | winnersFinal
  | losersFinal
deriving DecidableEq

/-- TournamentStage: the overall tournament phase. -/
inductive TStage
  | roundRobin
  | bracket
  | finals
  | completed
  | ended
deriving DecidableEq

/-- Tournament status. -/
inductive TStatus
  | active
  | completed
  | ended
deriving DecidableEq

/-- TournamentSpecialMode. -/
inductive SpecialMode
  | nullMode
  | mixedRoundRobin
deriving DecidableEq

/-- Attendee snapshot (id, name, emoji, rating) used by team formation.
The source's `rating` is a JS number used only through order comparisons;
we model it as `Int`. -/
structure Attendee where
  id : Nat
  name : String
  emoji : String
  rating : Int
deriving DecidableEq

/-- TeamDraft as produced by team formation (`createFairTeams` / `createRandomTeams`). -/
structure TeamDraft where
  name : String
  seed : Nat
  playerAId : Nat
  playerBId : Option Nat
deriving DecidableEq

/-- A persisted TournamentTeam row. -/
structure TTeam where
  id : Nat
  name : String
  seed : Nat
  playerAId : Nat
  playerBId : Option Nat
  wins : Nat
  losses : Nat
deriving DecidableEq

/-- A persisted TournamentMatch row. -/
structure TMatch where
  id : Nat
  stage : MatchStage
  round : Nat
  slot : Nat
  bestOf : Nat
  teamAId : Option Nat
  teamBId : Option Nat
  teamAPlayerIds : List Nat
  teamBPlayerIds : List Nat
  winsA : Nat
  winsB : Nat
  isComplete : Bool
  winnerTeamId : Option Nat
  loserTeamId : Option Nat
deriving DecidableEq

/-- A TournamentMatchGame link row: one scored game at position `gameNumber`
of its match's best-of-N series. -/
structure MatchGame where
  tournamentMatchId : Nat
  gameId : Nat
  gameNumber : Nat
deriving DecidableEq

/-- The single tournament's state: the Tournament row plus its Team, Match and
MatchGame rows, and a fresh-id counter standing in for the database's id
generation. -/
structure Tournament where
  status : TStatus
  stage : TStage
  specialMode : SpecialMode
  winnerTeamId : Option Nat
  teams : List TTeam
  matchRows : List TMatch
  matchGames : List MatchGame
  nextId : Nat
deriving DecidableEq

/-- pairKey: the canonical key of an unordered player pair — the sorted roster.
The source sorts the id strings and joins them with a separator; with `Nat`
ids the sorted list itself is an equivalent canonical form. -/
def pairKey (playerIds : List Nat) : List Nat :=
  List.insertionSort (· ≤ ·) playerIds

/-- Team display name, `"{emojiA}{nameA} + {emojiB}{nameB}"`. -/
def teamName (p1 p2 : Attendee) : String :=
  p1.emoji ++ p1.name ++ " + " ++ p2.emoji ++ p2.name

/-- The comparator of `createFairTeams`' sort: `(a, b) => b.rating - a.rating`,
i.e. `a` may come before `b` when `a.rating ≥ b.rating` (rating descending). -/
def ratingDesc (a b : Attendee) : Prop :=
  b.rating ≤ a.rating

instance : DecidableRel ratingDesc := fun a b =>
  inferInstanceAs (Decidable (b.rating ≤ a.rating))

/-- Placeholder attendee for out-of-range list reads (never reached on the
source's in-bounds accesses). -/
def defaultAttendee : Attendee := ⟨0, "", "", 0⟩

/-- The two-pointer loop of `createFairTeams`: while `left < right`, pair
`sorted[left]` (highest remaining rating) with `sorted[right]` (lowest),
pushing a team with seed `teams.length + 1`, then move both pointers inward.
`fuel` bounds the iterations; `createFairTeams` passes enough. -/
def fairLoop (sorted : List Attendee) : Nat → Nat → Nat → List TeamDraft → List TeamDraft
  | 0, _, _, teams => teams
  | fuel + 1, left, right, teams =>
    if left < right then
      let high := sorted.getD left defaultAttendee
      let low := sorted.getD right defaultAttendee
      fairLoop sorted fuel (left + 1) (right - 1)
        (teams ++ [⟨teamName high low, teams.length + 1, high.id, some low.id⟩])
    else teams

/-- createFairTeams: sort attendees by rating descending (JS `sort` is stable;
`insertionSort` with the same comparator is the same stable sort), then walk
two pointers inward from both ends pairing highest with lowest. -/
def createFairTeams (players : List Attendee) : List TeamDraft :=
  let sorted := List.insertionSort ratingDesc players
  fairLoop sorted sorted.length 0 (sorted.length - 1) []

/-- The doubling loop of `nextPowerOfTwoBelow`: while `result * 2 <= value`,
`result *= 2`.  `fuel` bounds the iterations; `value` iterations always
suffice since `result` doubles from 1. -/
def nptLoop : Nat → Nat → Nat → Nat
  | 0, _, result => result
  | fuel + 1, value, result =>
    if result * 2 ≤ value then nptLoop fuel value (result * 2) else result

/-- nextPowerOfTwoBelow: the largest power of two that is ≤ `value`
(returns 1 for `value < 2`). -/
def nextPowerOfTwoBelow (value : Nat) : Nat :=
  nptLoop value value 1

/-- Roster of a persisted team: `[playerAId, playerBId].filter(Boolean)`. -/
def rosterOf (t : TTeam) : List Nat :=
  t.playerAId :: t.playerBId.toList

/-- Team lookup (`tournamentTeam.findUnique`). -/
def findTeam (teams : List TTeam) (tid : Nat) : Option TTeam :=
  teams.find? (fun t => t.id == tid)

/-- One match of a bracket round: chunk index `k` (the source's `i / 2`)
gives the id offset and the slot.  A missing opponent (`isBye`) makes the
match complete at creation with `teamAId` as winner.  The source dereferences
the teamA lookup unconditionally (`teamA!`); on the lookup's failure —
unreachable from the engine's call sites — we default to an empty roster. -/
def mkBracketMatch (teams : List TTeam) (startId round k : Nat)
    (teamAId : Nat) (teamBIdOpt : Option Nat) : TMatch :=
  let teamA := findTeam teams teamAId
  let teamB := teamBIdOpt.bind (findTeam teams)
  let isBye := teamB.isNone
  { id := startId + k
    stage := MatchStage.bracket
    round := round
    slot := k + 1
    bestOf := 3
    teamAId := some teamAId
    teamBId := teamBIdOpt
    teamAPlayerIds := teamA.elim [] rosterOf
    teamBPlayerIds := teamB.elim [] rosterOf
    winsA := 0
    winsB := 0
    isComplete := isBye
    winnerTeamId := if isBye then some teamAId else none
    loserTeamId := none }

/-- The `i += 2` loop of `createBracketRound` over the remaining team ids:
consecutive (teamA, teamB) chunks, the last team unpaired
(`teamIds[i + 1] ?? null`) when the count is odd; `k` is the chunk index. -/
def bracketLoop (teams : List TTeam) (startId round : Nat) : Nat → List Nat → List TMatch
  | _, [] => []
  | k, [a] => [mkBracketMatch teams startId round k a none]
  | k, a :: b :: rest =>
    mkBracketMatch teams startId round k a (some b) ::
      bracketLoop teams startId round (k + 1) rest

/-- createBracketRound: one BRACKET match per consecutive pair of team ids,
slot `(i / 2) + 1`, best-of-3; new rows take ids `startId`, `startId + 1`, …. -/
def createBracketRound (teams : List TTeam) (startId round : Nat) (teamIds : List Nat) :
    List TMatch :=
  bracketLoop teams startId round 0 teamIds

/-- Creating a bracket round against the tournament state: append the new
matches and advance the id counter.  No MatchGame link is created. -/
def addBracketRound (s : Tournament) (round : Nat) (teamIds : List Nat) : Tournament :=
  let ms := createBracketRound s.teams s.nextId round teamIds
  { s with matchRows := s.matchRows ++ ms, nextId := s.nextId + ms.length }

/-- The ROUND_ROBIN-stage matches of the tournament (the filtered `findMany`
of `finalizeFromRoundRobin`), in stored order. -/
def rrMatches (s : Tournament) : List TMatch :=
  s.matchRows.filter (fun m => m.stage == MatchStage.roundRobin)

/-- The player pair recorded as a round-robin match's winner:
`winsA > winsB ? teamAPlayerIds : teamBPlayerIds`, canonicalized by `pairKey`. -/
def winnerPairOf (m : TMatch) : List Nat :=
  pairKey (if m.winsB < m.winsA then m.teamAPlayerIds else m.teamBPlayerIds)

/-- One `pairWins.set(key, (pairWins.get(key) || 0) + 1)` step on the tally,
modelling the insertion-ordered JS `Map` as an association list: an existing
key's count is bumped in place, a new key is appended with count 1. -/
def bumpPair : List (List Nat × Nat) → List Nat → List (List Nat × Nat)
  | [], k => [(k, 1)]
  | (k', n) :: rest, k =>
    if k' = k then (k', n + 1) :: rest else (k', n) :: bumpPair rest k

/-- The mixed-round-robin pair tally: one point per round-robin match to the
pair that won more games of it. -/
def pairWinsTally (ms : List TMatch) : List (List Nat × Nat) :=
  ms.foldl (fun acc m => bumpPair acc (winnerPairOf m)) []

/-- The comparator of the tally sort, `(a, b) => b[1] - a[1]`: entry `a` may
come before entry `b` when its count is ≥. -/
def tallyGE (a b : List Nat × Nat) : Prop :=
  b.2 ≤ a.2

instance : DecidableRel tallyGE := fun a b =>
  inferInstanceAs (Decidable (b.2 ≤ a.2))

/-- The standings comparator of the standard round-robin finalize path:
wins descending, then losses ascending, then seed ascending
(`a` may come before `b` iff the comparator is ≤ 0 on them). -/
def standingsOrder (a b : TTeam) : Prop :=
  if a.wins ≠ b.wins then b.wins < a.wins
  else if a.losses ≠ b.losses then a.losses < b.losses
  else a.seed ≤ b.seed

instance : DecidableRel standingsOrder := fun a b => by
  unfold standingsOrder
  infer_instance

/-- The sorted standings of the standard finalize path (JS `sort` is stable;
`insertionSort` with the same comparator is the same stable sort). -/
def standingsOf (s : Tournament) : List TTeam :=
  List.insertionSort standingsOrder s.teams

/-- The qualifiers: the top-`bracketSize` standings, `bracketSize` being the
largest power of two ≤ the number of ranked teams. -/
def qualifiersOf (s : Tournament) : List TTeam :=
  (standingsOf s).take (nextPowerOfTwoBelow (standingsOf s).length)

/-- The top-2 winning pairs of the mixed path: tally entries sorted by count
descending (stable), first two keys. -/
def mixedTopPairs (s : Tournament) : List (List Nat) :=
  ((List.insertionSort tallyGE (pairWinsTally (rrMatches s))).take 2).map Prod.fst

/-- finalizeFromRoundRobin: once every ROUND_ROBIN match is complete, either
promote a MIXED_ROUND_ROBIN tournament to FINALS (tally winning pairs, create
the two finalist teams with seeds 98/99 and a single WINNERS_FINAL best-of-3
match) or promote a standard tournament to BRACKET (sort standings, take the
largest power-of-two prefix, delete all BRACKET matches and create round 1).
The source has no tournament-stage guard; this function runs after every
recorded game. -/
def finalizeFromRoundRobin (s : Tournament) : Tournament :=
  let rr := rrMatches s
  if ¬ rr.all (fun m => m.isComplete) then s
  else if s.specialMode = SpecialMode.mixedRoundRobin then
    let topPairs := mixedTopPairs s
    if topPairs.length < 2 then s
    else
      let pairA := topPairs.getD 0 []
      let pairB := topPairs.getD 1 []
      let teamA : TTeam :=
        { id := s.nextId, name := "Final Pair A", seed := 98
          playerAId := pairA.getD 0 0, playerBId := pairA[1]?, wins := 0, losses := 0 }
      let teamB : TTeam :=
        { id := s.nextId + 1, name := "Final Pair B", seed := 99
          playerAId := pairB.getD 0 0, playerBId := pairB[1]?, wins := 0, losses := 0 }
      let finalMatch : TMatch :=
        { id := s.nextId + 2, stage := MatchStage.winnersFinal, round := 1, slot := 1
          bestOf := 3, teamAId := some teamA.id, teamBId := some teamB.id
          teamAPlayerIds := pairA, teamBPlayerIds := pairB
          winsA := 0, winsB := 0, isComplete := false
          winnerTeamId := none, loserTeamId := none }
      { s with teams := s.teams ++ [teamA, teamB]
               matchRows := s.matchRows ++ [finalMatch]
               nextId := s.nextId + 3
               stage := TStage.finals }
  else
    let qualifiers := qualifiersOf s
    if qualifiers.length < 2 then s
    else
      let kept := s.matchRows.filter (fun m => ¬ m.stage == MatchStage.bracket)
      let ms := createBracketRound s.teams s.nextId 1 (qualifiers.map (fun t => t.id))
      { s with matchRows := kept ++ ms
               nextId := s.nextId + ms.length
               stage := TStage.bracket }

/-- Order of the bracket `findMany`: round ascending, then slot ascending. -/
def roundSlotOrder (a b : TMatch) : Prop :=
  a.round < b.round ∨ (a.round = b.round ∧ a.slot ≤ b.slot)

instance : DecidableRel roundSlotOrder := fun a b => by
  unfold roundSlotOrder
  infer_instance

/-- The BRACKET-stage matches ordered by (round, slot). -/
def bracketMatches (s : Tournament) : List TMatch :=
  List.insertionSort roundSlotOrder (s.matchRows.filter (fun m => m.stage == MatchStage.bracket))

/-- `Math.max(...rounds.keys(), 1)`: the highest bracket round present, at
least 1. -/
def highestBracketRound (s : Tournament) : Nat :=
  (bracketMatches s).foldl (fun acc m => max acc m.round) 1

/-- The matches of the current (highest) bracket round, in slot order. -/
def currentRound (s : Tournament) : List TMatch :=
  (bracketMatches s).filter (fun m => m.round == highestBracketRound s)

/-- advanceBracketIfReady: if the highest bracket round exists and is fully
complete, either crown a champion (exactly one winner: status/stage
COMPLETED, `winnerTeamId` set) or create the next round from the winners in
order — and, when the just-completed round had exactly 2 matches with two
recorded losers, additionally create the single LOSERS_FINAL (third-place)
best-of-3 match between the losers. -/
def advanceBracketIfReady (s : Tournament) : Tournament :=
  let highestRound := highestBracketRound s
  let currentRoundMatches := currentRound s
  if currentRoundMatches.isEmpty ∨ ¬ currentRoundMatches.all (fun m => m.isComplete) then s
  else
    let winners := currentRoundMatches.filterMap (fun m => m.winnerTeamId)
    if winners.length = 1 then
      { s with status := TStatus.completed
               stage := TStage.completed
               winnerTeamId := winners.head? }
    else
      let s1 := addBracketRound s (highestRound + 1) winners
      if currentRoundMatches.length = 2 then
        let loserTeamIds := currentRoundMatches.filterMap (fun m => m.loserTeamId)
        if loserTeamIds.length = 2 then
          match s1.teams.filter (fun t => loserTeamIds.contains t.id) with
          | a :: b :: _ =>
            let lf : TMatch :=
              { id := s1.nextId, stage := MatchStage.losersFinal, round := 1, slot := 1
                bestOf := 3, teamAId := some a.id, teamBId := some b.id
                teamAPlayerIds := rosterOf a, teamBPlayerIds := rosterOf b
                winsA := 0, winsB := 0, isComplete := false
                winnerTeamId := none, loserTeamId := none }
            { s1 with matchRows := s1.matchRows ++ [lf], nextId := s1.nextId + 1 }
          | _ => s1
        else s1
      else s1

/-- One `recordTournamentGame` request: the target match and the game score. -/
structure GameCall where
  matchId : Nat
  scoreA : Nat
  scoreB : Nat
deriving DecidableEq

/-- The next game number of a match: its linked MatchGame count plus 1. -/
def nextGameNumberOf (s : Tournament) (m : TMatch) : Nat :=
  (s.matchGames.filter (fun g => g.tournamentMatchId == m.id)).length + 1

/-- The series update of `recordTournamentGame` on the target match: the
winning side's counter is incremented; the series is over once a side has
2 wins or `bestOf` games have been played; on completion between two
persisted teams the side with more wins becomes `winnerTeamId` and the
other `loserTeamId` (otherwise both fields keep their previous values). -/
def updatedMatch (s : Tournament) (c : GameCall) (m : TMatch) : TMatch :=
  let nextGameNumber := nextGameNumberOf s m
  let winA : Bool := c.scoreB < c.scoreA
  let winsA := m.winsA + (if winA then 1 else 0)
  let winsB := m.winsB + (if winA then 0 else 1)
  let isSeriesOver : Bool :=
    decide (2 ≤ winsA) || decide (2 ≤ winsB) || decide (m.bestOf ≤ nextGameNumber)
  let winnerTeamId :=
    match isSeriesOver, m.teamAId, m.teamBId with
    | true, some ta, some tb => if winsB < winsA then some ta else some tb
    | _, _, _ => m.winnerTeamId
  let loserTeamId :=
    match isSeriesOver, m.teamAId, m.teamBId with
    | true, some ta, some tb => if winsB < winsA then some tb else some ta
    | _, _, _ => m.loserTeamId
  { m with winsA := winsA, winsB := winsB, isComplete := isSeriesOver
           winnerTeamId := winnerTeamId, loserTeamId := loserTeamId }

/-- The transactional part of `recordTournamentGame`: persist the scored game
(a fresh id from the external collaborator), link it as the next game number,
store the updated match, and — when a ROUND_ROBIN-stage match completed
between two persisted teams — bump the winner's `wins` and the loser's
`losses`. -/
def applyGameTx (s : Tournament) (c : GameCall) (m : TMatch) : Tournament :=
  let updated := updatedMatch s c m
  let teams1 :=
    if updated.isComplete ∧ updated.winnerTeamId.isSome ∧ updated.loserTeamId.isSome ∧
        m.stage = MatchStage.roundRobin then
      s.teams.map (fun t =>
        if some t.id = updated.winnerTeamId then { t with wins := t.wins + 1 }
        else if some t.id = updated.loserTeamId then { t with losses := t.losses + 1 }
        else t)
    else s.teams
  { s with matchRows := s.matchRows.map (fun x => if x.id == m.id then updated else x)
           teams := teams1
           matchGames := s.matchGames ++ [⟨m.id, s.nextId, nextGameNumberOf s m⟩]
           nextId := s.nextId + 1 }

/-- recordTournamentGame: validate, apply the transactional series update,
then run the stage transitions (round-robin finalize, bracket advance) and
the WINNERS_FINAL completion check. -/
def recordTournamentGame (s : Tournament) (c : GameCall) : Except String Tournament :=
  if c.scoreA = c.scoreB then Except.error "Games cannot end in a tie"
  else if ¬ s.status = TStatus.active then Except.error "Tournament is not active"
  else
    match s.matchRows.find? (fun m => m.id == c.matchId) with
    | none => Except.error "Match not found"
    | some m =>
      if m.isComplete then Except.error "Match is already complete"
      else
        let s1 := applyGameTx s c m
        let s2 := finalizeFromRoundRobin s1
        let s3 := advanceBracketIfReady s2
        let s4 :=
          if m.stage = MatchStage.winnersFinal then
            match s3.matchRows.find? (fun x => x.id == m.id) with
            | some refreshed =>
              if refreshed.isComplete then
                { s3 with status := TStatus.completed
                          stage := TStage.completed
                          winnerTeamId :=
                            if refreshed.winsB < refreshed.winsA then refreshed.teamAId
                            else refreshed.teamBId }
              else s3
            | none => s3
          else s3
        Except.ok s4

/-- One API call against the state: a failed call (`Except.error`, thrown
before any state mutation in the source) leaves the state unchanged. -/
def stepCall (s : Tournament) (c : GameCall) : Tournament :=
  match recordTournamentGame s c with
  | Except.ok s' => s'
  | Except.error _ => s

/-- A whole sequence of `recordTournamentGame` API calls. -/
def runCalls (s : Tournament) (cs : List GameCall) : Tournament :=
  cs.foldl stepCall s

/-- The series-scoring state of one match: the fields of a TournamentMatch
read and written by the series part of `recordTournamentGame` (lines
484–514), `games` being the number of linked MatchGame rows. -/
structure Series where
  bestOf : Nat
  winsA : Nat
  winsB : Nat
  games : Nat
  isComplete : Bool
deriving DecidableEq

/-- One game recorded against a series, transcribing the series part of
`recordTournamentGame`: reject ties and already-complete series; the winning
side's counter is incremented and the series is over once a side has 2 wins
or `bestOf` games have been played. -/
def seriesStep (st : Series) (scoreA scoreB : Nat) : Option Series :=
  if scoreA = scoreB then none
  else if st.isComplete then none
  else
    let nextGameNumber := st.games + 1
    let winA : Bool := scoreB < scoreA
    let winsA := st.winsA + (if winA then 1 else 0)
    let winsB := st.winsB + (if winA then 0 else 1)
    let isSeriesOver : Bool :=
      decide (2 ≤ winsA) || decide (2 ≤ winsB) || decide (st.bestOf ≤ nextGameNumber)
    some ⟨st.bestOf, winsA, winsB, nextGameNumber, isSeriesOver⟩

/-- A sequence of recorded games against a series; `none` when some game of
the sequence was rejected (a tie, or play on a completed series). -/
def runSeries : Series → List (Nat × Nat) → Option Series
  | st, [] => some st
  | st, (a, b) :: rest => (seriesStep st a b).bind (fun st' => runSeries st' rest)

/-- A freshly created best-of-3 match's series state (every match the engine
creates has `bestOf = 3`). -/
def freshSeries : Series := ⟨3, 0, 0, 0, false⟩

/-- Specification-side tally for the mixed finalists, following the spec's
words: the total number of GAME wins credited to a player pair across the
round-robin matches (a side's `winsA`/`winsB` when that side's sorted roster
is the pair). -/
def specGameWins (ms : List TMatch) (p : List Nat) : Nat :=
  (ms.map (fun m =>
    (if pairKey m.teamAPlayerIds = p then m.winsA else 0) +
    (if pairKey m.teamBPlayerIds = p then m.winsB else 0))).sum

/-- Declarative count of the round-robin MATCHES won by a player pair (the
pair with more game wins in the match). -/
def specMatchWins (ms : List TMatch) (p : List Nat) : Nat :=
  (ms.filter (fun m => winnerPairOf m == p)).length

/-- Lookup of a pair's count in the association-list tally (0 when absent). -/
def tallyGet (l : List (List Nat × Nat)) (k : List Nat) : Nat :=
  ((l.find? (fun e => e.1 == k)).map Prod.snd).getD 0

/-- Four equal teams (seeds 1–4, players 11–18) used by the concrete states. -/
def demoTeams : List TTeam :=
  [⟨1, "T1", 1, 11, some 12, 0, 0⟩, ⟨2, "T2", 2, 13, some 14, 0, 0⟩,
   ⟨3, "T3", 3, 15, some 16, 0, 0⟩, ⟨4, "T4", 4, 17, some 18, 0, 0⟩]

/-- A 4-team tournament in BRACKET stage (the even-team-count path: no
round-robin matches), round 1 freshly created: matches (T1 v T2), (T3 v T4). -/
def bracketDemo : Tournament :=
  { status := TStatus.active, stage := TStage.bracket, specialMode := SpecialMode.nullMode
    winnerTeamId := none, teams := demoTeams
    matchRows := createBracketRound demoTeams 5 1 [1, 2, 3, 4]
    matchGames := [], nextId := 7 }

/-- A mixed-format ROUND_ROBIN match: no persisted teams, only rosters. -/
def mkMixedMatch (mid slot : Nat) (ra rb : List Nat) (wa wb : Nat) (done : Bool) : TMatch :=
  { id := mid, stage := MatchStage.roundRobin, round := 1, slot := slot, bestOf := 3
    teamAId := none, teamBId := none, teamAPlayerIds := ra, teamBPlayerIds := rb
    winsA := wa, winsB := wb, isComplete := done, winnerTeamId := none, loserTeamId := none }

/-- A 4-attendee MIXED_ROUND_ROBIN tournament (players 21–24) with its three
roster-only round-robin matches still to be played. -/
def mixedFourDemo : Tournament :=
  { status := TStatus.active, stage := TStage.roundRobin
    specialMode := SpecialMode.mixedRoundRobin, winnerTeamId := none
    teams := [⟨1, "TA", 1, 21, some 22, 0, 0⟩, ⟨2, "TB", 2, 23, some 24, 0, 0⟩]
    matchRows :=
      [mkMixedMatch 201 1 [21, 22] [23, 24] 0 0 false,
       mkMixedMatch 202 2 [21, 23] [22, 24] 0 0 false,
       mkMixedMatch 203 3 [21, 24] [22, 23] 0 0 false]
    matchGames := [], nextId := 300 }

/-- A 5-attendee MIXED_ROUND_ROBIN tournament (players 1–5) whose five
rotation round-robin matches are all complete.  Pair game-win totals:
{1,2} and {4,5} and {1,5} have 3 game wins each, {2,3} and {3,4} only 2 —
while each of the five pairs won exactly one match. -/
def mixedFiveDemo : Tournament :=
  { status := TStatus.active, stage := TStage.roundRobin
    specialMode := SpecialMode.mixedRoundRobin, winnerTeamId := none
    teams := [⟨1, "TA", 1, 1, some 2, 0, 0⟩, ⟨2, "TB", 2, 3, some 4, 0, 0⟩]
    matchRows :=
      [mkMixedMatch 301 1 [2, 3] [4, 5] 2 1 true,
       mkMixedMatch 302 2 [3, 4] [5, 1] 2 1 true,
       mkMixedMatch 303 3 [4, 5] [1, 2] 2 1 true,
       mkMixedMatch 304 4 [5, 1] [2, 3] 2 0 true,
       mkMixedMatch 305 5 [1, 2] [3, 4] 2 0 true]
    matchGames := [], nextId := 400 }

/-- A 4-team tournament whose bracket round 1 (the semifinals) just
completed: T1 beat T2, T3 beat T4. -/
def semifinalDemo : Tournament :=
  { status := TStatus.active, stage := TStage.bracket, specialMode := SpecialMode.nullMode
    winnerTeamId := none, teams := demoTeams
    matchRows :=
      [⟨5, MatchStage.bracket, 1, 1, 3, some 1, some 2, [11, 12], [13, 14],
        2, 0, true, some 1, some 2⟩,
       ⟨6, MatchStage.bracket, 1, 2, 3, some 3, some 4, [15, 16], [17, 18],
        2, 1, true, some 3, some 4⟩]
    matchGames := [], nextId := 7 }

/-- Three teams (odd team count: full round-robin) for the round-robin demos. -/
def rrTeams : List TTeam :=
  [⟨1, "T1", 1, 11, some 12, 0, 0⟩, ⟨2, "T2", 2, 13, some 14, 0, 0⟩,
   ⟨3, "T3", 3, 15, some 16, 0, 0⟩]

/-- A standard ROUND_ROBIN match between two persisted teams. -/
def mkRRMatch (mid slot ta tb : Nat) (ra rb : List Nat) : TMatch :=
  ⟨mid, MatchStage.roundRobin, 1, slot, 3, some ta, some tb, ra, rb,
   0, 0, false, none, none⟩

/-- A 3-team tournament in ROUND_ROBIN stage with its three pairwise matches
still to be played (slots `i*100+j` as in the source). -/
def rrDemo : Tournament :=
  { status := TStatus.active, stage := TStage.roundRobin, specialMode := SpecialMode.nullMode
    winnerTeamId := none, teams := rrTeams
    matchRows :=
      [mkRRMatch 4 1 1 2 [11, 12] [13, 14],
       mkRRMatch 5 2 1 3 [11, 12] [15, 16],
       mkRRMatch 6 102 2 3 [13, 14] [15, 16]]
    matchGames := [], nextId := 7 }

/-- Five teams with final round-robin standings T3 (4–0), T1 (3–1), T5 (2–2),
T2 (1–3), T4 (0–4), every round-robin match complete: ready for promotion. -/
def finalizeDemo : Tournament :=
  { status := TStatus.active, stage := TStage.roundRobin, specialMode := SpecialMode.nullMode
    winnerTeamId := none
    teams :=
      [⟨1, "T1", 1, 11, some 12, 3, 1⟩, ⟨2, "T2", 2, 13, some 14, 1, 3⟩,
       ⟨3, "T3", 3, 15, some 16, 4, 0⟩, ⟨4, "T4", 4, 17, some 18, 0, 4⟩,
       ⟨5, "T5", 5, 19, some 20, 2, 2⟩]
    matchRows :=
      [⟨10, MatchStage.roundRobin, 1, 1, 3, some 1, some 2, [11, 12], [13, 14],
        2, 0, true, some 1, some 2⟩]
    matchGames := [], nextId := 30 }

/-- Specification-side description of one fair team: the team formed from the
sorted attendees at positions `hi` (the stronger player, `playerA`) and `lo`
(the weaker player, `playerB`), with the given 1-based seed. -/
def fairDraft (sorted : List Attendee) (hi lo seed : Nat) : TeamDraft :=
  ⟨teamName (sorted.getD hi defaultAttendee) (sorted.getD lo defaultAttendee),
   seed,
   (sorted.getD hi defaultAttendee).id,
   some ((sorted.getD lo defaultAttendee).id)⟩

/-- The spec's five-attendee fair-pairing example, ratings 1300…950. -/
def demoFivePlayers : List Attendee :=
  [⟨1, "A", "e", 1300⟩, ⟨2, "B", "e", 1200⟩, ⟨3, "C", "e", 1100⟩,
   ⟨4, "D", "e", 1000⟩, ⟨5, "E", "e", 950⟩]

/-- States reachable from `bracketDemo` by recording games: always ACTIVE,
standard mode, the four demo teams, every match a BRACKET match that is not
complete, and no recorded winner. -/
def demoBracketInv (s : Tournament) : Prop :=
  s.status = TStatus.active ∧ s.specialMode = SpecialMode.nullMode ∧
  s.teams = demoTeams ∧ s.winnerTeamId = none ∧
  ∀ m ∈ s.matchRows, m.stage = MatchStage.bracket ∧ m.isComplete = false

/-! ## The series engine (claim C4) -/

/-- The running invariant of a best-of-3 series: the stored completion flag
is exactly the completion condition of the current counters, and the win
counters sum to the games played. -/
def seriesInv (st : Series) : Prop :=
  st.bestOf = 3 ∧
  st.isComplete = decide (2 ≤ st.winsA ∨ 2 ≤ st.winsB ∨ st.bestOf ≤ st.games) ∧
  st.winsA + st.winsB = st.games

theorem seriesStep_inv {st st' : Series} {a b : Nat} (hP : seriesInv st)
    (h : seriesStep st a b = some st') : seriesInv st' := by
  rw [seriesStep] at h
  split at h
  · exact Option.noConfusion h
  · split at h
    · exact Option.noConfusion h
    · injection h with h
      subst h
      obtain ⟨h3, _, hsum⟩ := hP
      refine ⟨h3, ?_, ?_⟩
      · simp [seriesInv, Bool.or_assoc]
      · by_cases hw : b < a <;> simp [hw] <;> omega

theorem runSeries_inv : ∀ (gs : List (Nat × Nat)) (st st' : Series), seriesInv st →
    runSeries st gs = some st' → seriesInv st'
  | [], st, st', hP, h => by
    rw [runSeries] at h
    injection h with h
    exact h ▸ hP
  | (a, b) :: rest, st, st', hP, h => by
    rw [runSeries] at h
    cases hstep : seriesStep st a b with
    | none => rw [hstep] at h; exact Option.noConfusion h
    | some st1 =>
      rw [hstep] at h
      exact runSeries_inv rest st1 st' (seriesStep_inv hP hstep) h

/-- C4: for every match (all are created best-of-3) and every valid sequence
of recorded untied games, the series is complete iff a side has reached
`ceil(bestOf / 2)` wins or the games played have reached `bestOf`, and
`winsA + winsB` always equals the number of games recorded. -/
theorem series_completion_law (gs : List (Nat × Nat)) (st' : Series)
    (h : runSeries freshSeries gs = some st') :
    (st'.isComplete = true ↔
      (st'.bestOf + 1) / 2 ≤ st'.winsA ∨ (st'.bestOf + 1) / 2 ≤ st'.winsB ∨
        st'.bestOf ≤ st'.games) ∧
    st'.winsA + st'.winsB = st'.games ∧ st'.bestOf = 3 := by
  obtain ⟨h3, hic, hsum⟩ := runSeries_inv gs freshSeries st' ⟨rfl, by rfl, rfl⟩ h
  refine ⟨?_, hsum, h3⟩
  rw [h3, hic, h3]
  norm_num

/-- Witness for C4: the concrete series 11–9, 7–11, 11–5 completes at 2–1
after 3 games. -/
theorem series_completion_law_witness :
    ((Series.mk 3 2 1 3 true).isComplete = true ↔
      ((Series.mk 3 2 1 3 true).bestOf + 1) / 2 ≤ (Series.mk 3 2 1 3 true).winsA ∨
      ((Series.mk 3 2 1 3 true).bestOf + 1) / 2 ≤ (Series.mk 3 2 1 3 true).winsB ∨
      (Series.mk 3 2 1 3 true).bestOf ≤ (Series.mk 3 2 1 3 true).games) ∧
    (Series.mk 3 2 1 3 true).winsA + (Series.mk 3 2 1 3 true).winsB =
      (Series.mk 3 2 1 3 true).games ∧
    (Series.mk 3 2 1 3 true).bestOf = 3 :=
  series_completion_law [(11, 9), (7, 11), (11, 5)] (Series.mk 3 2 1 3 true) (by decide)

/-! ## Bracket round creation and byes (claim C8) -/

theorem bracketLoop_mem (teams : List TTeam) (startId round : Nat) :
    ∀ (k : Nat) (ids : List Nat) (m : TMatch), m ∈ bracketLoop teams startId round k ids →
      m.stage = MatchStage.bracket ∧ m.round = round ∧ m.bestOf = 3 ∧
      m.winsA = 0 ∧ m.winsB = 0 ∧ m.teamAId ≠ none ∧
      (m.teamBId = none → m.isComplete = true ∧ m.winnerTeamId = m.teamAId)
  | _, [], m, h => by simp [bracketLoop] at h
  | k, [a], m, h => by
    rw [bracketLoop] at h
    rcases List.mem_singleton.mp h with rfl
    simp [mkBracketMatch]
  | k, a :: b :: rest, m, h => by
    rw [bracketLoop] at h
    rcases List.mem_cons.mp h with rfl | h'
    · simp [mkBracketMatch]
    · exact bracketLoop_mem teams startId round (k + 1) rest m h'

theorem bracketLoop_byes_odd (teams : List TTeam) (startId round : Nat) :
    ∀ (k : Nat) (ids : List Nat), ids.length % 2 = 1 →
      ((bracketLoop teams startId round k ids).filter
          (fun m => m.teamBId == none)).map (fun m => m.teamAId) = [ids.getLast?]
  | _, [], h => by simp at h
  | k, [a], _ => by simp [bracketLoop, mkBracketMatch]
  | k, a :: b :: rest, h => by
    have hlen : rest.length % 2 = 1 := by
      simp only [List.length_cons] at h
      omega
    have hne : rest ≠ [] := by
      intro hcon
      rw [hcon] at hlen
      simp at hlen
    rw [bracketLoop]
    rw [List.filter_cons_of_neg (by simp [mkBracketMatch])]
    rw [bracketLoop_byes_odd teams startId round (k + 1) rest hlen]
    rcases List.exists_cons_of_ne_nil hne with ⟨c, rest', rfl⟩
    rw [List.getLast?_cons_cons, List.getLast?_cons_cons]

theorem bracketLoop_byes_even (teams : List TTeam) (startId round : Nat) :
    ∀ (k : Nat) (ids : List Nat), ids.length % 2 = 0 →
      (bracketLoop teams startId round k ids).filter (fun m => m.teamBId == none) = []
  | _, [], _ => by simp [bracketLoop]
  | _, [a], h => by simp at h
  | k, a :: b :: rest, h => by
    have hlen : rest.length % 2 = 0 := by
      simp only [List.length_cons] at h
      omega
    rw [bracketLoop]
    rw [List.filter_cons_of_neg (by simp [mkBracketMatch])]
    exact bracketLoop_byes_even teams startId round (k + 1) rest hlen

/-- C8: a bracket match created with a null `teamBId` is a bye, complete at
creation with `teamAId` (always non-null) as winner and no game recorded;
creating a round from an odd number of team ids produces exactly one such
match, given to the last team, and an even count produces none; bracket
round creation never records a game. -/
theorem bye_auto_completion :
    (∀ (teams : List TTeam) (startId round : Nat) (teamIds : List Nat) (m : TMatch),
        m ∈ createBracketRound teams startId round teamIds → m.teamBId = none →
        m.isComplete = true ∧ m.winnerTeamId = m.teamAId ∧ m.teamAId ≠ none ∧
        m.winsA = 0 ∧ m.winsB = 0) ∧
    (∀ (teams : List TTeam) (startId round : Nat) (teamIds : List Nat),
        teamIds.length % 2 = 1 →
        ((createBracketRound teams startId round teamIds).filter
            (fun m => m.teamBId == none)).map (fun m => m.teamAId) = [teamIds.getLast?]) ∧
    (∀ (teams : List TTeam) (startId round : Nat) (teamIds : List Nat),
        teamIds.length % 2 = 0 →
        (createBracketRound teams startId round teamIds).filter
          (fun m => m.teamBId == none) = []) ∧
    (∀ (s : Tournament) (round : Nat) (teamIds : List Nat),
        (addBracketRound s round teamIds).matchGames = s.matchGames) := by
  refine ⟨?_, ?_, ?_, ?_⟩
  · intro teams startId round teamIds m hm hb
    obtain ⟨_, _, _, hwA, hwB, hA, hbye⟩ := bracketLoop_mem teams startId round 0 teamIds m hm
    obtain ⟨hc, hw⟩ := hbye hb
    exact ⟨hc, hw, hA, hwA, hwB⟩
  · intro teams startId round teamIds h
    exact bracketLoop_byes_odd teams startId round 0 teamIds h
  · intro teams startId round teamIds h
    exact bracketLoop_byes_even teams startId round 0 teamIds h
  · intro s round teamIds
    rfl

/-! ## Winner and loser assignment on series completion (claim C5) -/

/-- C5 as written is false on the code: completing a roster-only match (a
mixed-format match with `teamAId = teamBId = null`) leaves `winnerTeamId`
and `loserTeamId` null.  Two straight game wins on match 201 of
`mixedFourDemo` complete the match with no winner recorded. -/
theorem roster_match_completes_without_winner :
    (match (recordTournamentGame mixedFourDemo ⟨201, 11, 5⟩).bind
        (fun s => recordTournamentGame s ⟨201, 11, 7⟩) with
      | Except.ok s => (s.matchRows.filter (fun m => m.id == 201)).map
          (fun m => (m.isComplete, m.winnerTeamId, m.loserTeamId))
      | Except.error _ => []) = [(true, none, none)] ∧
    mixedFourDemo.matchRows.map (fun m => (m.id, m.teamAId, m.teamBId)) =
      [(201, none, none), (202, none, none), (203, none, none)] := by
  exact ⟨by decide, by decide⟩

theorem updatedMatch_winner (s : Tournament) (c : GameCall) (m : TMatch) (ta tb : Nat)
    (hta : m.teamAId = some ta) (htb : m.teamBId = some tb)
    (hdone : (updatedMatch s c m).isComplete = true) :
    (updatedMatch s c m).winnerTeamId =
      (if (updatedMatch s c m).winsB < (updatedMatch s c m).winsA
        then some ta else some tb) ∧
    (updatedMatch s c m).loserTeamId =
      (if (updatedMatch s c m).winsB < (updatedMatch s c m).winsA
        then some tb else some ta) := by
  simp only [updatedMatch, hta, htb] at hdone ⊢
  rw [hdone]
  exact ⟨rfl, rfl⟩

/-- C5 amended: when a match's series completes via `recordTournamentGame`
and BOTH `teamAId` and `teamBId` are present, the side with the higher final
win count becomes `winnerTeamId` and the other `loserTeamId`; a match with a
missing team id (in particular a roster-only mixed match) keeps its previous
`winnerTeamId`/`loserTeamId` — null — even when it completes. -/
theorem winner_loser_on_completion :
    (∀ (s : Tournament) (c : GameCall) (m : TMatch) (ta tb : Nat),
        m.teamAId = some ta → m.teamBId = some tb →
        (updatedMatch s c m).isComplete = true →
        ((updatedMatch s c m).winsB < (updatedMatch s c m).winsA →
          (updatedMatch s c m).winnerTeamId = some ta ∧
          (updatedMatch s c m).loserTeamId = some tb) ∧
        ((updatedMatch s c m).winsA < (updatedMatch s c m).winsB →
          (updatedMatch s c m).winnerTeamId = some tb ∧
          (updatedMatch s c m).loserTeamId = some ta)) ∧
    (∀ (s : Tournament) (c : GameCall) (m : TMatch),
        m.teamAId = none ∨ m.teamBId = none →
        (updatedMatch s c m).winnerTeamId = m.winnerTeamId ∧
        (updatedMatch s c m).loserTeamId = m.loserTeamId) := by
  constructor
  · intro s c m ta tb hta htb hdone
    obtain ⟨hw, hl⟩ := updatedMatch_winner s c m ta tb hta htb hdone
    constructor
    · intro hlt
      rw [hw, hl, if_pos hlt, if_pos hlt]
      exact ⟨rfl, rfl⟩
    · intro hlt
      have hn : ¬ (updatedMatch s c m).winsB < (updatedMatch s c m).winsA := by omega
      rw [hw, hl, if_neg hn, if_neg hn]
      exact ⟨rfl, rfl⟩
  · intro s c m h
    constructor
    · simp only [updatedMatch]
      split
      · rename_i heq _ _
        rcases h with h | h <;> simp_all
      · rfl
    · simp only [updatedMatch]
      split
      · rename_i heq _ _
        rcases h with h | h <;> simp_all
      · rfl

/-- Witness for C5's amended theorem: a round-robin match between persisted
teams 1 and 2 standing at 1–0 completes on the next game win by side A, and
team 1 is recorded as winner, team 2 as loser. -/
theorem winner_loser_on_completion_witness :
    (updatedMatch rrDemo ⟨4, 11, 5⟩
        ⟨4, MatchStage.roundRobin, 1, 1, 3, some 1, some 2, [11, 12], [13, 14],
          1, 0, false, none, none⟩).winnerTeamId = some 1 ∧
    (updatedMatch rrDemo ⟨4, 11, 5⟩
        ⟨4, MatchStage.roundRobin, 1, 1, 3, some 1, some 2, [11, 12], [13, 14],
          1, 0, false, none, none⟩).loserTeamId = some 2 :=
  (winner_loser_on_completion.1 rrDemo ⟨4, 11, 5⟩
      ⟨4, MatchStage.roundRobin, 1, 1, 3, some 1, some 2, [11, 12], [13, 14],
        1, 0, false, none, none⟩ 1 2 (by rfl) (by rfl) (by decide)).1 (by decide)

/-! ## Match deletion outside the promotion transition (claim C2) -/

/-- C2 is false on the code: `bracketDemo` is already in BRACKET stage (its
round-robin matches — there are none — are trivially all complete), yet
recording one game on bracket match 5 deletes BOTH existing bracket matches
(ids 5 and 6, in particular match 6 which the recording never touched) and
recreates round 1 as fresh rows 8 and 9, because `finalizeFromRoundRobin`
re-runs its promotion logic on every recorded game. -/
theorem record_on_bracket_deletes_matches :
    bracketDemo.matchRows.map (fun m => m.id) = [5, 6] ∧
    (match recordTournamentGame bracketDemo ⟨5, 11, 9⟩ with
      | Except.ok s => s.matchRows.map (fun m => m.id)
      | Except.error _ => []) = [8, 9] := by
  exact ⟨by decide, by decide⟩

/-! ## The consolation (third-place) rule (claim C9) -/

theorem bracketRound_no_losersFinal (teams : List TTeam) (startId round : Nat)
    (teamIds : List Nat) :
    (createBracketRound teams startId round teamIds).filter
      (fun m => m.stage == MatchStage.losersFinal) = [] := by
  rw [List.filter_eq_nil_iff]
  intro m hm
  have hstage := (bracketLoop_mem teams startId round 0 teamIds m hm).1
  simp [hstage]

/-- C9: after the current (highest) bracket round completes, exactly one
LOSERS_FINAL match (round 1, slot 1, best-of-3) is created when that round
had exactly 2 matches, pairing the two recorded losers, alongside a next
round of exactly one match; a completed round of any other match count never
produces a LOSERS_FINAL match (so the rule can only fire for the semifinal
round, and at most once: every later round has a single match). -/
theorem consolation_rule :
    (∀ (s : Tournament) (mA mB : TMatch) (w1 w2 l1 l2 : Nat) (ta tb : TTeam),
        currentRound s = [mA, mB] →
        mA.isComplete = true → mB.isComplete = true →
        mA.winnerTeamId = some w1 → mB.winnerTeamId = some w2 →
        mA.loserTeamId = some l1 → mB.loserTeamId = some l2 →
        s.teams.filter (fun t => [l1, l2].contains t.id) = [ta, tb] →
        advanceBracketIfReady s =
          { s with
            matchRows := s.matchRows ++
              createBracketRound s.teams s.nextId (highestBracketRound s + 1) [w1, w2] ++
              [⟨s.nextId + 1, MatchStage.losersFinal, 1, 1, 3, some ta.id, some tb.id,
                rosterOf ta, rosterOf tb, 0, 0, false, none, none⟩]
            nextId := s.nextId + 2 } ∧
        (createBracketRound s.teams s.nextId (highestBracketRound s + 1) [w1, w2]).length
          = 1) ∧
    (∀ s : Tournament, (currentRound s).length ≠ 2 →
        (advanceBracketIfReady s).matchRows.filter
            (fun m => m.stage == MatchStage.losersFinal) =
          s.matchRows.filter (fun m => m.stage == MatchStage.losersFinal)) := by
  constructor
  · intro s mA mB w1 w2 l1 l2 ta tb hcur hcA hcB hwA hwB hlA hlB hteams
    constructor
    · simp only [advanceBracketIfReady]
      rw [hcur]
      simp only [List.isEmpty_cons, List.all_cons, List.all_nil, hcA, hcB,
        List.filterMap_cons, List.filterMap_nil, hwA, hwB, hlA, hlB]
      simp only [addBracketRound, hteams]
      simp [createBracketRound, bracketLoop]
    · simp [createBracketRound, bracketLoop]
  · intro s hne
    simp only [advanceBracketIfReady]
    by_cases hg : ((currentRound s).isEmpty = true ∨
        ¬ ((currentRound s).all fun m => m.isComplete) = true)
    · rw [if_pos hg]
    · rw [if_neg hg]
      by_cases hw : (List.filterMap (fun m => m.winnerTeamId) (currentRound s)).length = 1
      · rw [if_pos hw]
      · rw [if_neg hw, if_neg hne]
        simp only [addBracketRound]
        rw [List.filter_append, bracketRound_no_losersFinal, List.append_nil]

/-- Witness for C9: completing the two semifinals of `semifinalDemo` creates
the single LOSERS_FINAL match between teams 2 and 4 and a one-match final
round. -/
theorem consolation_rule_witness :
    advanceBracketIfReady semifinalDemo =
      { semifinalDemo with
        matchRows := semifinalDemo.matchRows ++
          createBracketRound semifinalDemo.teams semifinalDemo.nextId
            (highestBracketRound semifinalDemo + 1) [1, 3] ++
          [⟨semifinalDemo.nextId + 1, MatchStage.losersFinal, 1, 1, 3, some 2, some 4,
            [13, 14], [17, 18], 0, 0, false, none, none⟩]
        nextId := semifinalDemo.nextId + 2 } :=
  (consolation_rule.1 semifinalDemo
      ⟨5, MatchStage.bracket, 1, 1, 3, some 1, some 2, [11, 12], [13, 14],
        2, 0, true, some 1, some 2⟩
      ⟨6, MatchStage.bracket, 1, 2, 3, some 3, some 4, [15, 16], [17, 18],
        2, 1, true, some 3, some 4⟩
      1 3 2 4 ⟨2, "T2", 2, 13, some 14, 0, 0⟩ ⟨4, "T4", 4, 17, some 18, 0, 0⟩
      (by decide) (by rfl) (by rfl) (by rfl) (by rfl) (by rfl) (by rfl)
      (by decide)).1

/-! ## Fair team formation (claim C6) -/

instance : IsTotal Attendee ratingDesc :=
  ⟨fun a b => by unfold ratingDesc; omega⟩

instance : IsTrans Attendee ratingDesc :=
  ⟨fun a b c hab hbc => by unfold ratingDesc at hab hbc ⊢; omega⟩

theorem fairLoop_spec (sorted : List Attendee) :
    ∀ (fuel left right : Nat) (acc : List TeamDraft), right - left ≤ 2 * fuel →
      fairLoop sorted fuel left right acc =
        acc ++ (List.range ((right - left + 1) / 2)).map (fun j =>
          fairDraft sorted (left + j) (right - j) (acc.length + j + 1)) := by
  intro fuel
  induction fuel with
  | zero =>
    intro left right acc h
    have hz : right - left = 0 := by omega
    simp only [fairLoop, hz]
    simp
  | succ fuel ih =>
    intro left right acc h
    simp only [fairLoop]
    by_cases hlr : left < right
    · rw [if_pos hlr]
      rw [ih (left + 1) (right - 1) _ (by omega)]
      have harith : (right - 1 - (left + 1) + 1) / 2 + 1 = (right - left + 1) / 2 := by
        omega
      rw [← harith, List.range_succ_eq_map, List.map_cons, List.map_map,
        List.append_assoc, List.singleton_append]
      congr 1
      congr 1
      refine List.map_congr_left (fun j hj => ?_)
      simp only [Function.comp_apply, List.length_append, List.length_singleton,
        Nat.succ_eq_add_one]
      have e1 : left + 1 + j = left + (j + 1) := by omega
      have e2 : right - 1 - j = right - (j + 1) := by omega
      have e3 : acc.length + 1 + j + 1 = acc.length + (j + 1) + 1 := by omega
      rw [e1, e2, e3]
    · rw [if_neg hlr]
      have hz : right - left = 0 := by omega
      rw [hz]
      simp

/-- C6: FAIR team formation sorts the attendees by rating descending and the
i-th team pairs the i-th ranked attendee from the top with the i-th from the
bottom, with 1-based creation-order seeds; with an odd attendee count the
exact median-rated attendee (position `n / 2` of the sorted order) appears in
no team. -/
theorem fair_pairing (players : List Attendee) :
    List.Sorted ratingDesc (List.insertionSort ratingDesc players) ∧
    (List.insertionSort ratingDesc players).Perm players ∧
    createFairTeams players =
      (List.range (players.length / 2)).map (fun j =>
        fairDraft (List.insertionSort ratingDesc players)
          j (players.length - 1 - j) (j + 1)) ∧
    (players.length % 2 = 1 → (players.map (fun p => p.id)).Nodup →
      ∀ t ∈ createFairTeams players,
        t.playerAId ≠ ((List.insertionSort ratingDesc players).getD
            (players.length / 2) defaultAttendee).id ∧
        t.playerBId ≠ some (((List.insertionSort ratingDesc players).getD
            (players.length / 2) defaultAttendee).id)) := by
  have hperm : (List.insertionSort ratingDesc players).Perm players :=
    List.perm_insertionSort ratingDesc players
  have hlen : (List.insertionSort ratingDesc players).length = players.length :=
    List.length_insertionSort ratingDesc players
  have hmain : createFairTeams players =
      (List.range (players.length / 2)).map (fun j =>
        fairDraft (List.insertionSort ratingDesc players)
          j (players.length - 1 - j) (j + 1)) := by
    rw [createFairTeams]
    rw [fairLoop_spec (List.insertionSort ratingDesc players)
      (List.insertionSort ratingDesc players).length 0
      ((List.insertionSort ratingDesc players).length - 1) [] (by omega)]
    rw [List.nil_append, hlen]
    have hc : (players.length - 1 - 0 + 1) / 2 = players.length / 2 := by omega
    rw [hc]
    refine List.map_congr_left (fun j hj => ?_)
    have e1 : 0 + j = j := by omega
    rw [e1]
    simp
  refine ⟨List.sorted_insertionSort ratingDesc players, hperm, hmain, ?_⟩
  intro hodd hnodup t ht
  rw [hmain] at ht
  obtain ⟨j, hj, rfl⟩ := List.mem_map.mp ht
  rw [List.mem_range] at hj
  have hnd : ((List.insertionSort ratingDesc players).map (fun p => p.id)).Nodup :=
    ((hperm.map (fun p => p.id)).nodup_iff).mpr hnodup
  have hn1 : 1 ≤ players.length := by omega
  have hjlt : j < (List.insertionSort ratingDesc players).length := by omega
  have hmlt : players.length / 2 < (List.insertionSort ratingDesc players).length := by
    omega
  have hblt : players.length - 1 - j < (List.insertionSort ratingDesc players).length := by
    omega
  have hids : ∀ (i i' : Nat) (hi : i < (List.insertionSort ratingDesc players).length)
      (hi' : i' < (List.insertionSort ratingDesc players).length), i ≠ i' →
      ((List.insertionSort ratingDesc players).getD i defaultAttendee).id ≠
      ((List.insertionSort ratingDesc players).getD i' defaultAttendee).id := by
    intro i i' hi hi' hne hcon
    apply hne
    rw [List.getD_eq_getElem _ _ hi, List.getD_eq_getElem _ _ hi'] at hcon
    have hci : ((List.insertionSort ratingDesc players).map (fun p => p.id)).get
        ⟨i, by simpa using hi⟩ =
        ((List.insertionSort ratingDesc players).map (fun p => p.id)).get
        ⟨i', by simpa using hi'⟩ := by
      simp [hcon]
    have := (hnd.get_inj_iff).mp hci
    simpa using this
  constructor
  · exact hids j (players.length / 2) hjlt hmlt (by omega)
  · intro hcon
    injection hcon with hcon
    exact hids (players.length - 1 - j) (players.length / 2) hblt hmlt (by omega) hcon

/-- Witness for C6 at the spec's five-attendee example: the excluded median
is the 1100-rated attendee (id 3). -/
theorem fair_pairing_witness :
    createFairTeams demoFivePlayers =
      (List.range (demoFivePlayers.length / 2)).map (fun j =>
        fairDraft (List.insertionSort ratingDesc demoFivePlayers)
          j (demoFivePlayers.length - 1 - j) (j + 1)) :=
  (fair_pairing demoFivePlayers).2.2.1

/-! ## Standard round-robin → bracket promotion (claim C7) -/

theorem standingsOrder_total (a b : TTeam) : standingsOrder a b ∨ standingsOrder b a := by
  unfold standingsOrder
  split_ifs <;> omega

theorem standingsOrder_asymm_of_seed (a b : TTeam) (hs : a.seed ≠ b.seed) :
    standingsOrder a b → standingsOrder b a → False := by
  unfold standingsOrder
  split_ifs <;> omega

instance : IsTotal TTeam standingsOrder := ⟨standingsOrder_total⟩

instance : IsTrans TTeam standingsOrder :=
  ⟨fun a b c hab hbc => by
    unfold standingsOrder at hab hbc ⊢
    split_ifs at hab hbc ⊢ <;> omega⟩

theorem nptLoop_spec : ∀ (fuel v r : Nat), 0 < r → r ≤ v → v < r * 2 ^ fuel →
    (∃ k, nptLoop fuel v r = r * 2 ^ k) ∧ nptLoop fuel v r ≤ v ∧
      v < 2 * nptLoop fuel v r
  | 0, v, r, _, hrv, hbound => by
    rw [pow_zero, mul_one] at hbound
    omega
  | fuel + 1, v, r, hr, hrv, hbound => by
    rw [nptLoop]
    by_cases hd : r * 2 ≤ v
    · rw [if_pos hd]
      have hb' : v < r * 2 * 2 ^ fuel := by
        have he : r * 2 * 2 ^ fuel = r * 2 ^ (fuel + 1) := by ring
        omega
      obtain ⟨⟨k, hk⟩, h1, h2⟩ := nptLoop_spec fuel v (r * 2) (by omega) hd hb'
      exact ⟨⟨k + 1, by rw [hk]; ring⟩, h1, h2⟩
    · rw [if_neg hd]
      exact ⟨⟨0, by simp⟩, hrv, by omega⟩

theorem nextPowerOfTwoBelow_spec (v : Nat) (hv : 1 ≤ v) :
    (∃ k, nextPowerOfTwoBelow v = 2 ^ k) ∧ nextPowerOfTwoBelow v ≤ v ∧
      v < 2 * nextPowerOfTwoBelow v := by
  have h := nptLoop_spec v v 1 (by omega) hv (by simpa using Nat.lt_two_pow v)
  simpa [nextPowerOfTwoBelow] using h

theorem nextPowerOfTwoBelow_ge_two (v : Nat) (hv : 2 ≤ v) :
    2 ≤ nextPowerOfTwoBelow v := by
  obtain ⟨_, _, hgt⟩ := nextPowerOfTwoBelow_spec v (by omega)
  omega

theorem nextPowerOfTwoBelow_max (v : Nat) (hv : 1 ≤ v) :
    ∀ k, 2 ^ k ≤ v → 2 ^ k ≤ nextPowerOfTwoBelow v := by
  obtain ⟨⟨j, hj⟩, hle, hgt⟩ := nextPowerOfTwoBelow_spec v hv
  intro k hk
  have hlt : 2 ^ k < 2 ^ (j + 1) := by
    calc 2 ^ k ≤ v := hk
    _ < 2 * 2 ^ j := by omega
    _ = 2 ^ (j + 1) := by ring
  have : k < j + 1 := (Nat.pow_lt_pow_iff_right (by omega)).mp hlt
  calc 2 ^ k ≤ 2 ^ j := Nat.pow_le_pow_right (by omega) (by omega)
  _ = nextPowerOfTwoBelow v := hj.symm

theorem bracketLoop_getElem (teams : List TTeam) (startId round : Nat) :
    ∀ (k : Nat) (ids : List Nat) (j : Nat) (m : TMatch),
      (bracketLoop teams startId round k ids)[j]? = some m →
      m.round = round ∧ m.slot = k + j + 1 ∧ m.bestOf = 3 ∧
      m.teamAId = ids[2 * j]? ∧ m.teamBId = ids[2 * j + 1]?
  | _, [], j, m, h => by simp [bracketLoop] at h
  | k, [a], j, m, h => by
    rw [bracketLoop] at h
    cases j with
    | zero =>
      rw [List.getElem?_cons_zero] at h
      injection h with h
      rw [← h]
      simp [mkBracketMatch]
    | succ j => simp at h
  | k, a :: b :: rest, j, m, h => by
    rw [bracketLoop] at h
    cases j with
    | zero =>
      rw [List.getElem?_cons_zero] at h
      injection h with h
      rw [← h]
      simp [mkBracketMatch]
    | succ j =>
      rw [List.getElem?_cons_succ] at h
      obtain ⟨h1, h2, h3, h5, h6⟩ := bracketLoop_getElem teams startId round (k + 1) rest j m h
      refine ⟨h1, by omega, h3, ?_, ?_⟩
      · rw [h5]
        have he : 2 * (j + 1) = 2 * j + 1 + 1 := by omega
        rw [he, List.getElem?_cons_succ, List.getElem?_cons_succ]
      · rw [h6]
        have he : 2 * (j + 1) + 1 = 2 * j + 1 + 1 + 1 := by omega
        rw [he, List.getElem?_cons_succ, List.getElem?_cons_succ]

/-- C7: when every round-robin match of a standard tournament is complete,
the standings sort the teams by the wins/losses/seed comparator (a total
order, antisymmetric whenever seeds differ); the bracket size is the largest
power of two ≤ the team count; exactly the top-`bracketSize` standings
qualify; round-1 bracket matches pair qualifiers (1 v 2), (3 v 4), …; and
with fewer than 2 teams nothing changes. -/
theorem standard_promotion (s : Tournament)
    (hmode : s.specialMode = SpecialMode.nullMode)
    (hall : (rrMatches s).all (fun m => m.isComplete) = true) :
    List.Sorted standingsOrder (standingsOf s) ∧
    (standingsOf s).Perm s.teams ∧
    (∀ a b : TTeam, standingsOrder a b ∨ standingsOrder b a) ∧
    (∀ a b : TTeam, a.seed ≠ b.seed →
      standingsOrder a b → standingsOrder b a → False) ∧
    (1 ≤ s.teams.length →
      (∃ k, nextPowerOfTwoBelow s.teams.length = 2 ^ k) ∧
      nextPowerOfTwoBelow s.teams.length ≤ s.teams.length ∧
      s.teams.length < 2 * nextPowerOfTwoBelow s.teams.length ∧
      (∀ k, 2 ^ k ≤ s.teams.length →
        2 ^ k ≤ nextPowerOfTwoBelow s.teams.length)) ∧
    qualifiersOf s = (standingsOf s).take (nextPowerOfTwoBelow s.teams.length) ∧
    (s.teams.length < 2 → finalizeFromRoundRobin s = s) ∧
    (2 ≤ s.teams.length →
      (finalizeFromRoundRobin s).stage = TStage.bracket ∧
      (finalizeFromRoundRobin s).teams = s.teams ∧
      (finalizeFromRoundRobin s).matchRows =
        s.matchRows.filter (fun m => ¬ m.stage == MatchStage.bracket) ++
          createBracketRound s.teams s.nextId 1
            ((qualifiersOf s).map (fun t => t.id)) ∧
      (∀ (j : Nat) (m : TMatch),
        (createBracketRound s.teams s.nextId 1
            ((qualifiersOf s).map (fun t => t.id)))[j]? = some m →
        m.round = 1 ∧ m.slot = j + 1 ∧ m.bestOf = 3 ∧
        m.teamAId = ((qualifiersOf s).map (fun t => t.id))[2 * j]? ∧
        m.teamBId = ((qualifiersOf s).map (fun t => t.id))[2 * j + 1]?)) := by
  have hlen : (standingsOf s).length = s.teams.length :=
    List.length_insertionSort standingsOrder s.teams
  have hqlen : (qualifiersOf s).length =
      min (nextPowerOfTwoBelow s.teams.length) s.teams.length := by
    rw [qualifiersOf, List.length_take, hlen]
  refine ⟨List.sorted_insertionSort standingsOrder s.teams,
    List.perm_insertionSort standingsOrder s.teams,
    standingsOrder_total,
    standingsOrder_asymm_of_seed,
    ?_, ?_, ?_, ?_⟩
  · intro h1
    obtain ⟨hpow, hle, hgt⟩ := nextPowerOfTwoBelow_spec s.teams.length h1
    exact ⟨hpow, hle, hgt, nextPowerOfTwoBelow_max s.teams.length h1⟩
  · rw [qualifiersOf, hlen]
  · intro hlt
    simp only [finalizeFromRoundRobin]
    rw [if_neg (by rw [hall]; simp)]
    rw [if_neg (by rw [hmode]; simp)]
    rw [if_pos (by omega)]
  · intro hge
    have hq2 : ¬ (qualifiersOf s).length < 2 := by
      have := nextPowerOfTwoBelow_ge_two s.teams.length hge
      omega
    have hfin : finalizeFromRoundRobin s =
        { s with
            matchRows :=
              s.matchRows.filter (fun m => ¬ m.stage == MatchStage.bracket) ++
                createBracketRound s.teams s.nextId 1
                  ((qualifiersOf s).map (fun t => t.id))
            nextId := s.nextId + (createBracketRound s.teams s.nextId 1
              ((qualifiersOf s).map (fun t => t.id))).length
            stage := TStage.bracket } := by
      simp only [finalizeFromRoundRobin]
      rw [if_neg (by rw [hall]; simp)]
      rw [if_neg (by rw [hmode]; simp)]
      rw [if_neg hq2]
    refine ⟨by rw [hfin], by rw [hfin], by rw [hfin], ?_⟩
    intro j m hm
    have h := bracketLoop_getElem s.teams s.nextId 1 0 _ j m hm
    obtain ⟨h1, h2, h3, h5, h6⟩ := h
    exact ⟨h1, by omega, h3, h5, h6⟩

/-- Witness for C7 at `finalizeDemo`: five teams, bracket size 4, the
tournament is promoted into BRACKET stage. -/
theorem standard_promotion_witness :
    (finalizeFromRoundRobin finalizeDemo).stage = TStage.bracket ∧
    (finalizeFromRoundRobin finalizeDemo).teams = finalizeDemo.teams :=
  ⟨((standard_promotion finalizeDemo (by rfl) (by decide)).2.2.2.2.2.2.2
      (by decide)).1,
   ((standard_promotion finalizeDemo (by rfl) (by decide)).2.2.2.2.2.2.2
      (by decide)).2.1⟩

/-! ## Mixed-format finalist selection (claim C3) -/

instance : IsTotal (List Nat × Nat) tallyGE :=
  ⟨fun a b => by unfold tallyGE; omega⟩

instance : IsTrans (List Nat × Nat) tallyGE :=
  ⟨fun a b c hab hbc => by unfold tallyGE at hab hbc ⊢; omega⟩

theorem tallyGet_nil (k : List Nat) : tallyGet [] k = 0 := rfl

theorem tallyGet_bump_self : ∀ (l : List (List Nat × Nat)) (k : List Nat),
    tallyGet (bumpPair l k) k = tallyGet l k + 1
  | [], k => by simp [bumpPair, tallyGet]
  | (k', n) :: rest, k => by
    by_cases hk : k' = k
    · subst hk
      simp [bumpPair, tallyGet]
    · rw [bumpPair, if_neg hk]
      rw [tallyGet, tallyGet, List.find?_cons_of_neg _ (by simp [hk]),
        List.find?_cons_of_neg _ (by simp [hk])]
      exact tallyGet_bump_self rest k

theorem tallyGet_bump_other : ∀ (l : List (List Nat × Nat)) (k k' : List Nat), k' ≠ k →
    tallyGet (bumpPair l k) k' = tallyGet l k'
  | [], k, k', h => by
    simp [bumpPair, tallyGet, Ne.symm h]
  | (k0, n) :: rest, k, k', h => by
    by_cases hk : k0 = k
    · subst hk
      by_cases hk' : k0 = k'
      · exact absurd hk'.symm h
      · rw [bumpPair, if_pos rfl]
        rw [tallyGet, tallyGet, List.find?_cons_of_neg _ (by simp [hk']),
          List.find?_cons_of_neg _ (by simp [hk'])]
    · rw [bumpPair, if_neg hk]
      by_cases hk' : k0 = k'
      · subst hk'
        simp [tallyGet]
      · rw [tallyGet, tallyGet, List.find?_cons_of_neg _ (by simp [hk']),
          List.find?_cons_of_neg _ (by simp [hk'])]
        exact tallyGet_bump_other rest k k' h

theorem bumpPair_keys : ∀ (l : List (List Nat × Nat)) (k : List Nat),
    (bumpPair l k).map Prod.fst =
      if k ∈ l.map Prod.fst then l.map Prod.fst else l.map Prod.fst ++ [k]
  | [], k => by simp [bumpPair]
  | (k', n) :: rest, k => by
    by_cases hk : k' = k
    · subst hk
      simp [bumpPair]
    · rw [bumpPair, if_neg hk]
      rw [List.map_cons, bumpPair_keys rest k, List.map_cons]
      by_cases hmem : k ∈ rest.map Prod.fst
      · rw [if_pos hmem, if_pos (by simp [hmem])]
      · rw [if_neg hmem, if_neg (by simp [List.mem_cons, hmem, Ne.symm hk]), List.cons_append]

theorem tallyFold_keys_nodup : ∀ (ms : List TMatch) (acc : List (List Nat × Nat)),
    (acc.map Prod.fst).Nodup →
    ((ms.foldl (fun a m => bumpPair a (winnerPairOf m)) acc).map Prod.fst).Nodup
  | [], acc, h => h
  | m :: rest, acc, h => by
    rw [List.foldl_cons]
    refine tallyFold_keys_nodup rest _ ?_
    rw [bumpPair_keys]
    by_cases hmem : winnerPairOf m ∈ acc.map Prod.fst
    · rw [if_pos hmem]; exact h
    · rw [if_neg hmem]
      simp [List.nodup_append, h, hmem]

theorem tallyGet_foldl : ∀ (ms : List TMatch) (acc : List (List Nat × Nat)) (p : List Nat),
    tallyGet (ms.foldl (fun a m => bumpPair a (winnerPairOf m)) acc) p =
      tallyGet acc p + (ms.filter (fun m => winnerPairOf m == p)).length
  | [], acc, p => by simp
  | m :: rest, acc, p => by
    rw [List.foldl_cons, tallyGet_foldl rest _ p]
    by_cases hp : winnerPairOf m = p
    · rw [List.filter_cons_of_pos (by simp [hp]), hp, tallyGet_bump_self]
      simp [Nat.add_assoc, Nat.add_comm 1]
    · rw [List.filter_cons_of_neg (by simp [hp]), tallyGet_bump_other acc _ p
        (fun h => hp h.symm)]

theorem tally_entry_eq : ∀ (l : List (List Nat × Nat)), (l.map Prod.fst).Nodup →
    ∀ e ∈ l, tallyGet l e.1 = e.2
  | [], _, e, he => by simp at he
  | x :: rest, hnd, e, he => by
    rcases List.mem_cons.mp he with rfl | he'
    · simp [tallyGet]
    · have hne : x.1 ≠ e.1 := by
        intro hc
        have : e.1 ∈ rest.map Prod.fst := List.mem_map.mpr ⟨e, he', rfl⟩
        rw [List.map_cons] at hnd
        exact (List.nodup_cons.mp hnd).1 (hc ▸ this)
      rw [tallyGet, List.find?_cons_of_neg _ (by simp [hne])]
      exact tally_entry_eq rest
        (by rw [List.map_cons] at hnd; exact (List.nodup_cons.mp hnd).2) e he'

/-- C3 as written is false on the code: the finalist pairs are NOT chosen by
total game wins.  In `mixedFiveDemo` each of the five pairs won exactly one
match, so the code (which counts MATCH wins per pair, ties broken by first
win in stored order) picks pairs {2,3} and {3,4} — whose total game wins are
2 each — while pairs {1,2}, {4,5} and {1,5} all have 3 game wins.  The chosen
finalists are therefore not a top-2 by total game wins under any tie-break. -/
theorem mixed_finalists_not_by_game_wins :
    (finalizeFromRoundRobin mixedFiveDemo).stage = TStage.finals ∧
    ((finalizeFromRoundRobin mixedFiveDemo).matchRows.filter
        (fun m => m.stage == MatchStage.winnersFinal)).map
      (fun m => (m.teamAPlayerIds, m.teamBPlayerIds)) = [([2, 3], [3, 4])] ∧
    specGameWins (rrMatches mixedFiveDemo) [2, 3] = 2 ∧
    specGameWins (rrMatches mixedFiveDemo) [3, 4] = 2 ∧
    specGameWins (rrMatches mixedFiveDemo) [1, 2] = 3 ∧
    specGameWins (rrMatches mixedFiveDemo) [4, 5] = 3 ∧
    specGameWins (rrMatches mixedFiveDemo) [1, 5] = 3 := by
  exact ⟨by decide, by decide, by decide, by decide, by decide, by decide, by decide⟩

/-- C3 amended: once all round-robin matches of a MIXED_ROUND_ROBIN
tournament are complete, the finalists are chosen by counting round-robin
MATCHES won per unique sorted player pair (one point per match to the side
with more game wins; losing pairs score nothing), ranking pairs by that
count descending — stable, ties in first-win order — and taking the first
two; those two pairs become new teams (seeds 98 and 99) in a single
WINNERS_FINAL round-1 best-of-3 match and the stage becomes FINALS; with
fewer than 2 distinct match-winning pairs no transition occurs. -/
theorem mixed_promotion (s : Tournament)
    (hmode : s.specialMode = SpecialMode.mixedRoundRobin)
    (hall : (rrMatches s).all (fun m => m.isComplete) = true) :
    (∀ e ∈ pairWinsTally (rrMatches s), e.2 = specMatchWins (rrMatches s) e.1) ∧
    ((pairWinsTally (rrMatches s)).map Prod.fst).Nodup ∧
    List.Sorted tallyGE (List.insertionSort tallyGE (pairWinsTally (rrMatches s))) ∧
    (List.insertionSort tallyGE (pairWinsTally (rrMatches s))).Perm
      (pairWinsTally (rrMatches s)) ∧
    ((mixedTopPairs s).length < 2 → finalizeFromRoundRobin s = s) ∧
    (2 ≤ (mixedTopPairs s).length →
      (finalizeFromRoundRobin s).stage = TStage.finals ∧
      (finalizeFromRoundRobin s).teams = s.teams ++
        [⟨s.nextId, "Final Pair A", 98, ((mixedTopPairs s).getD 0 []).getD 0 0,
          ((mixedTopPairs s).getD 0 [])[1]?, 0, 0⟩,
         ⟨s.nextId + 1, "Final Pair B", 99, ((mixedTopPairs s).getD 1 []).getD 0 0,
          ((mixedTopPairs s).getD 1 [])[1]?, 0, 0⟩] ∧
      (finalizeFromRoundRobin s).matchRows = s.matchRows ++
        [⟨s.nextId + 2, MatchStage.winnersFinal, 1, 1, 3, some s.nextId,
          some (s.nextId + 1), (mixedTopPairs s).getD 0 [], (mixedTopPairs s).getD 1 [],
          0, 0, false, none, none⟩]) := by
  refine ⟨?_, ?_, List.sorted_insertionSort tallyGE _, List.perm_insertionSort tallyGE _,
    ?_, ?_⟩
  · intro e he
    have hnd : ((pairWinsTally (rrMatches s)).map Prod.fst).Nodup :=
      tallyFold_keys_nodup (rrMatches s) [] (by simp)
    have h1 := tally_entry_eq _ hnd e he
    have h2 : tallyGet (pairWinsTally (rrMatches s)) e.1 =
        tallyGet [] e.1 +
          ((rrMatches s).filter (fun m => winnerPairOf m == e.1)).length :=
      tallyGet_foldl (rrMatches s) [] e.1
    rw [tallyGet_nil] at h2
    rw [← h1, h2]
    simp [specMatchWins]
  · exact tallyFold_keys_nodup (rrMatches s) [] (by simp)
  · intro hlt
    simp only [finalizeFromRoundRobin]
    rw [if_neg (by rw [hall]; simp)]
    rw [if_pos hmode, if_pos hlt]
  · intro hge
    have hfin : finalizeFromRoundRobin s =
        { s with
            teams := s.teams ++
              [⟨s.nextId, "Final Pair A", 98, ((mixedTopPairs s).getD 0 []).getD 0 0,
                ((mixedTopPairs s).getD 0 [])[1]?, 0, 0⟩,
               ⟨s.nextId + 1, "Final Pair B", 99, ((mixedTopPairs s).getD 1 []).getD 0 0,
                ((mixedTopPairs s).getD 1 [])[1]?, 0, 0⟩]
            matchRows := s.matchRows ++
              [⟨s.nextId + 2, MatchStage.winnersFinal, 1, 1, 3, some s.nextId,
                some (s.nextId + 1), (mixedTopPairs s).getD 0 [],
                (mixedTopPairs s).getD 1 [], 0, 0, false, none, none⟩]
            nextId := s.nextId + 3
            stage := TStage.finals } := by
      simp only [finalizeFromRoundRobin]
      rw [if_neg (by rw [hall]; simp)]
      rw [if_pos hmode, if_neg (by omega)]
    exact ⟨by rw [hfin], by rw [hfin], by rw [hfin]⟩

/-- Witness for C3's amended theorem at `mixedFiveDemo`: the promotion to
FINALS happens with the two top match-winning pairs. -/
theorem mixed_promotion_witness :
    (finalizeFromRoundRobin mixedFiveDemo).stage = TStage.finals :=
  ((mixed_promotion mixedFiveDemo (by rfl) (by decide)).2.2.2.2.2 (by decide)).1

/-! ## Frame of a non-completing round-robin game (claim C10) -/

/-- C10: recording a game on an incomplete ROUND_ROBIN match of an ACTIVE
tournament (with no bracket matches yet) when the game does not complete the
series changes exactly: one appended MatchGame link with the next game
number, and the target match's winning-side counter; the match stays
incomplete with its winner/loser/stage untouched, and the tournament's
status, stage, winnerTeamId, teams and all other matches are unchanged. -/
theorem rr_frame (s : Tournament) (c : GameCall) (m : TMatch)
    (hfind : s.matchRows.find? (fun x => x.id == c.matchId) = some m)
    (hactive : s.status = TStatus.active)
    (hstage : m.stage = MatchStage.roundRobin)
    (hmc : m.isComplete = false)
    (hnotie : c.scoreA ≠ c.scoreB)
    (hnotover : (updatedMatch s c m).isComplete = false)
    (hnobracket : ∀ x ∈ s.matchRows, ¬ x.stage = MatchStage.bracket) :
    recordTournamentGame s c = Except.ok
      { s with
          matchRows := s.matchRows.map
            (fun x => if x.id == m.id then updatedMatch s c m else x)
          matchGames := s.matchGames ++ [⟨m.id, s.nextId, nextGameNumberOf s m⟩]
          nextId := s.nextId + 1 } ∧
    (updatedMatch s c m).winsA + (updatedMatch s c m).winsB = m.winsA + m.winsB + 1 ∧
    (c.scoreB < c.scoreA → (updatedMatch s c m).winsA = m.winsA + 1 ∧
      (updatedMatch s c m).winsB = m.winsB) ∧
    (c.scoreA < c.scoreB → (updatedMatch s c m).winsA = m.winsA ∧
      (updatedMatch s c m).winsB = m.winsB + 1) ∧
    (updatedMatch s c m).stage = m.stage ∧
    (updatedMatch s c m).winnerTeamId = m.winnerTeamId ∧
    (updatedMatch s c m).loserTeamId = m.loserTeamId ∧
    (updatedMatch s c m).isComplete = false ∧
    nextGameNumberOf s m =
      (s.matchGames.filter (fun g => g.tournamentMatchId == m.id)).length + 1 := by
  have hwin : (updatedMatch s c m).winnerTeamId = m.winnerTeamId := by
    simp only [updatedMatch] at hnotover ⊢
    rw [hnotover]
  have hlose : (updatedMatch s c m).loserTeamId = m.loserTeamId := by
    simp only [updatedMatch] at hnotover ⊢
    rw [hnotover]
  have hs1 : applyGameTx s c m =
      { s with
          matchRows := s.matchRows.map
            (fun x => if x.id == m.id then updatedMatch s c m else x)
          matchGames := s.matchGames ++ [⟨m.id, s.nextId, nextGameNumberOf s m⟩]
          nextId := s.nextId + 1 } := by
    simp only [applyGameTx]
    rw [if_neg (by simp [hnotover])]
  have hmem : m ∈ s.matchRows := List.mem_of_find?_eq_some hfind
  have hmem' : updatedMatch s c m ∈ (applyGameTx s c m).matchRows := by
    rw [hs1]
    exact List.mem_map.mpr ⟨m, hmem, by simp⟩
  have hall_false :
      ¬ ((rrMatches (applyGameTx s c m)).all (fun x => x.isComplete) = true) := by
    intro hcon
    rw [List.all_eq_true] at hcon
    have hin : updatedMatch s c m ∈ rrMatches (applyGameTx s c m) := by
      rw [rrMatches]
      refine List.mem_filter.mpr ⟨hmem', ?_⟩
      have : (updatedMatch s c m).stage = m.stage := rfl
      simp [this, hstage]
    have := hcon _ hin
    rw [hnotover] at this
    exact Bool.false_ne_true this
  have hs2 : finalizeFromRoundRobin (applyGameTx s c m) = applyGameTx s c m := by
    simp only [finalizeFromRoundRobin]
    rw [if_pos hall_false]
  have hbm : bracketMatches (applyGameTx s c m) = [] := by
    rw [bracketMatches]
    have hfil : (applyGameTx s c m).matchRows.filter
        (fun x => x.stage == MatchStage.bracket) = [] := by
      rw [List.filter_eq_nil_iff]
      intro x hx
      rw [hs1] at hx
      obtain ⟨x0, hx0, rfl⟩ := List.mem_map.mp hx
      by_cases hid : x0.id == m.id
      · rw [if_pos hid]
        have : (updatedMatch s c m).stage = m.stage := rfl
        simp [this, hstage]
      · rw [if_neg hid]
        simpa using hnobracket x0 hx0
    rw [hfil]
    rfl
  have hs3 : advanceBracketIfReady (applyGameTx s c m) = applyGameTx s c m := by
    simp only [advanceBracketIfReady]
    rw [if_pos (by rw [currentRound, hbm]; simp)]
  refine ⟨?_, ?_, ?_, ?_, rfl, hwin, hlose, hnotover, rfl⟩
  · simp only [recordTournamentGame]
    rw [if_neg hnotie, if_neg (by rw [hactive]; simp), hfind]
    dsimp only
    rw [if_neg (by rw [hmc]; simp)]
    rw [if_neg (by rw [hstage]; simp)]
    rw [hs2, hs3, hs1]
  · simp only [updatedMatch]
    by_cases hw : c.scoreB < c.scoreA <;> simp [hw] <;> omega
  · intro hw
    simp only [updatedMatch]
    simp [hw]
  · intro hw
    have hw' : ¬ c.scoreB < c.scoreA := by omega
    simp only [updatedMatch]
    simp [hw']

/-- Witness for C10: one 11–5 game on match 4 of `rrDemo` appends exactly one
MatchGame link and bumps that match's `winsA`. -/
theorem rr_frame_witness :
    recordTournamentGame rrDemo ⟨4, 11, 5⟩ = Except.ok
      { rrDemo with
          matchRows := rrDemo.matchRows.map
            (fun x => if x.id == (mkRRMatch 4 1 1 2 [11, 12] [13, 14]).id
              then updatedMatch rrDemo ⟨4, 11, 5⟩ (mkRRMatch 4 1 1 2 [11, 12] [13, 14])
              else x)
          matchGames := rrDemo.matchGames ++
            [⟨(mkRRMatch 4 1 1 2 [11, 12] [13, 14]).id, rrDemo.nextId,
              nextGameNumberOf rrDemo (mkRRMatch 4 1 1 2 [11, 12] [13, 14])⟩]
          nextId := rrDemo.nextId + 1 } :=
  (rr_frame rrDemo ⟨4, 11, 5⟩ (mkRRMatch 4 1 1 2 [11, 12] [13, 14]) (by rfl) (by rfl)
    (by rfl) (by rfl) (by decide) (by decide) (by decide)).1

/-! ## The bracket can never converge (claim C1) -/

theorem fresh_round_props (n : Nat) :
    ∀ x ∈ createBracketRound demoTeams n 1 [1, 2, 3, 4],
      x.stage = MatchStage.bracket ∧ x.isComplete = false := by
  intro x hx
  have hx' : x = mkBracketMatch demoTeams n 1 0 1 (some 2) ∨
      x = mkBracketMatch demoTeams n 1 1 3 (some 4) := by
    simpa [createBracketRound, bracketLoop] using hx
  rcases hx' with rfl | rfl <;> simp [mkBracketMatch, findTeam, demoTeams]

theorem finalize_demo_state (s : Tournament)
    (hmode : s.specialMode = SpecialMode.nullMode)
    (hteams : s.teams = demoTeams)
    (hbr : ∀ m ∈ s.matchRows, m.stage = MatchStage.bracket) :
    finalizeFromRoundRobin s =
      { s with
          matchRows := createBracketRound demoTeams s.nextId 1 [1, 2, 3, 4]
          nextId := s.nextId + 2
          stage := TStage.bracket } := by
  have hrr : rrMatches s = [] := by
    rw [rrMatches, List.filter_eq_nil_iff]
    intro m hm
    simp [hbr m hm]
  have hstand : standingsOf s = demoTeams := by
    rw [standingsOf, hteams]
    decide
  have hqual : qualifiersOf s = demoTeams := by
    rw [qualifiersOf, hstand]
    decide
  have hkept : s.matchRows.filter (fun m => ¬ m.stage == MatchStage.bracket) = [] := by
    rw [List.filter_eq_nil_iff]
    intro m hm
    simp [hbr m hm]
  have hids : (qualifiersOf s).map (fun t => t.id) = [1, 2, 3, 4] := by
    rw [hqual]
    decide
  simp only [finalizeFromRoundRobin]
  rw [hrr]
  rw [if_neg (by simp)]
  rw [if_neg (by rw [hmode]; simp)]
  rw [if_neg (by rw [hqual]; decide)]
  rw [hkept, hids, hteams]
  rfl

theorem advance_fresh_round (s : Tournament) (n : Nat)
    (hrows : s.matchRows = createBracketRound demoTeams n 1 [1, 2, 3, 4]) :
    advanceBracketIfReady s = s := by
  have hbm : bracketMatches s =
      [mkBracketMatch demoTeams n 1 0 1 (some 2),
       mkBracketMatch demoTeams n 1 1 3 (some 4)] := by
    rw [bracketMatches, hrows]
    simp [createBracketRound, bracketLoop, mkBracketMatch, findTeam, demoTeams,
      List.insertionSort, List.orderedInsert, roundSlotOrder]
  have hhr : highestBracketRound s = 1 := by
    rw [highestBracketRound, hbm]
    simp [mkBracketMatch]
  have hcur : currentRound s =
      [mkBracketMatch demoTeams n 1 0 1 (some 2),
       mkBracketMatch demoTeams n 1 1 3 (some 4)] := by
    rw [currentRound, hbm, hhr]
    simp [mkBracketMatch]
  simp only [advanceBracketIfReady]
  rw [hcur]
  rw [if_pos (by right; simp [mkBracketMatch, findTeam, demoTeams])]

theorem step_preserves_inv (s : Tournament) (c : GameCall)
    (h : demoBracketInv s) : demoBracketInv (stepCall s c) := by
  obtain ⟨hstat, hmode, hteams, hwin, hms⟩ := h
  rw [stepCall]
  cases hrec : recordTournamentGame s c with
  | error e => exact ⟨hstat, hmode, hteams, hwin, hms⟩
  | ok s' =>
    simp only [recordTournamentGame] at hrec
    by_cases h1 : c.scoreA = c.scoreB
    · rw [if_pos h1] at hrec
      exact absurd hrec (by simp)
    rw [if_neg h1] at hrec
    rw [if_neg (by rw [hstat]; simp)] at hrec
    cases hfind : s.matchRows.find? (fun x => x.id == c.matchId) with
    | none =>
      rw [hfind] at hrec
      exact absurd hrec (by simp)
    | some m =>
      rw [hfind] at hrec
      dsimp only at hrec
      have hmem := List.mem_of_find?_eq_some hfind
      obtain ⟨hmst, hmic⟩ := hms m hmem
      rw [if_neg (by rw [hmic]; simp)] at hrec
      rw [if_neg (by rw [hmst]; simp)] at hrec
      injection hrec with hrec
      have htx_teams : (applyGameTx s c m).teams = s.teams := by
        simp only [applyGameTx]
        rw [if_neg (by simp [hmst])]
      have htx_rows : ∀ x ∈ (applyGameTx s c m).matchRows,
          x.stage = MatchStage.bracket := by
        intro x hx
        have hrows : (applyGameTx s c m).matchRows = s.matchRows.map
            (fun x => if x.id == m.id then updatedMatch s c m else x) := rfl
        rw [hrows] at hx
        obtain ⟨x0, hx0, rfl⟩ := List.mem_map.mp hx
        by_cases hid : x0.id == m.id
        · rw [if_pos hid]
          have hst : (updatedMatch s c m).stage = m.stage := rfl
          rw [hst, hmst]
        · rw [if_neg hid]
          exact (hms x0 hx0).1
      have hfin := finalize_demo_state (applyGameTx s c m)
        (show (applyGameTx s c m).specialMode = SpecialMode.nullMode from hmode)
        (htx_teams.trans hteams) htx_rows
      have hadv := advance_fresh_round
        { applyGameTx s c m with
            matchRows := createBracketRound demoTeams (applyGameTx s c m).nextId 1
              [1, 2, 3, 4]
            nextId := (applyGameTx s c m).nextId + 2
            stage := TStage.bracket }
        ((applyGameTx s c m).nextId) rfl
      rw [← hrec, hfin, hadv]
      refine ⟨hstat, hmode, htx_teams.trans hteams, hwin, ?_⟩
      intro x hx
      exact fresh_round_props ((applyGameTx s c m).nextId) x hx

theorem runCalls_inv : ∀ (cs : List GameCall) (s : Tournament),
    demoBracketInv s → demoBracketInv (runCalls s cs)
  | [], _, h => h
  | c :: rest, s, h => by
    rw [runCalls, List.foldl_cons]
    exact runCalls_inv rest (stepCall s c) (step_preserves_inv s c h)

/-- C1 is false on the code: starting from the 4-team BRACKET-stage state
`bracketDemo` (a power-of-two team count entering the bracket), NO sequence
of `recordTournamentGame` calls can ever complete a bracket match, declare a
winner or complete the tournament — every recorded game makes
`finalizeFromRoundRobin` re-run its promotion (all zero round-robin matches
are complete), wiping the bracket and recreating round 1 — so the claimed
convergence to log2(N) rounds with a recorded `winnerTeamId` and status
COMPLETED never happens. -/
theorem bracket_never_completes (cs : List GameCall) :
    (runCalls bracketDemo cs).status = TStatus.active ∧
    (runCalls bracketDemo cs).winnerTeamId = none ∧
    ∀ m ∈ (runCalls bracketDemo cs).matchRows, m.isComplete = false := by
  have hinv : demoBracketInv bracketDemo := by
    refine ⟨rfl, rfl, rfl, rfl, ?_⟩
    decide
  obtain ⟨h1, _, _, h4, h5⟩ := runCalls_inv cs bracketDemo hinv
  exact ⟨h1, h4, fun m hm => (h5 m hm).2⟩

end Spikers
